import Mathlib

/-!
Shallow embedding of the progress-observer crate (src/lib.rs).

Modelling conventions:
* Instants and durations are nonnegative integers (nanoseconds, the
  resolution of Rust Instant and Duration), modelled by Nat.  All clock
  reads performed inside one call of tick_n are modelled by a single
  `now` argument.  Instant::duration_since saturates at zero, which the
  truncated subtraction of Nat models exactly.
* The u64 counters (ticks, checkpoints) are modelled by Nat.  The
  saturating Rust cast `x as u64` of a floating-point value is modelled
  explicitly: truncation toward zero, +infinity to u64::MAX, NaN to 0.
* The f64 ratio arithmetic of tick_n (div_duration_f64 followed by a
  division and a multiplication) is modelled by exact arithmetic; the
  division-by-zero special cases (infinity, NaN) are made explicit.
  max_scale_factor is an f64 parameter and is modelled by a rational.
* The panic on an invalid configuration in Observer::new_with is
  modelled as an Except.error: construction fails and produces no
  estimator.
-/

namespace ProgressObserver

/-- Largest value of a u64; the saturating float cast clamps to it. -/
def U64MAX : ℕ := 2 ^ 64 - 1

/-- Models the expression `(checkpoint_size as f64 / checkpoint_ratio) as u64`
from Observer::tick_n, where
checkpoint_ratio = time_since_observation.div_duration_f64(frequency_target).
Since cs / (elapsed / target) = cs * target / elapsed, the truncating cast
is Nat division, clamped to u64::MAX.  The f64 special cases are explicit:
a zero elapsed time makes the ratio zero (for a positive target), so the
division yields +infinity (cast: u64::MAX) for a positive numerator and
NaN (cast: 0) for a zero numerator; a zero target makes the ratio
+infinity (or NaN when elapsed is also zero), and in both cases the raw
value casts to 0. -/
def rawCast (cs elapsed target : ℕ) : ℕ :=
  if 0 < target then
    if 0 < elapsed then min (cs * target / elapsed) U64MAX
    else if cs = 0 then 0
    else U64MAX
  else 0

/-- Models `(checkpoint_size as f64 * self.max_scale_factor) as u64` from
Observer::tick_n.  For a nonnegative factor num/den this is Nat division
(cs * num) / den clamped to u64::MAX; for a negative factor the product is
negative and the saturating cast yields 0, which the toNat of the
numerator models. -/
def scaleCast (cs : ℕ) (msf : ℚ) : ℕ :=
  min (cs * msf.num.toNat / msf.den) U64MAX

/-- The estimator state: the fields of struct Observer (src/lib.rs).
The field `delay` plays the role of the remaining warm-up ticks. -/
structure Observer where
  frequency_target : ℕ
  checkpoint_size : ℕ
  max_checkpoint_size : Option ℕ
  delay : ℕ
  max_scale_factor : ℚ
  run_for : Option ℕ
  next_checkpoint : ℕ
  last_observation : ℕ
  first_observation : ℕ
  ticks : ℕ
  finished : Bool
deriving DecidableEq, Repr

/-- The construction options: struct Options (src/lib.rs). -/
structure Options where
  first_checkpoint : ℕ
  max_checkpoint_size : Option ℕ
  delay : ℕ
  max_scale_factor : ℚ
  run_for : Option ℕ
deriving DecidableEq, Repr

/-- The Default impl for Options. -/
def Options.default : Options :=
  { first_checkpoint := 1
    max_checkpoint_size := none
    delay := 0
    max_scale_factor := 2
    run_for := none }

/-- The one construction failure: max_scale_factor below 1. -/
inductive ConfigError where
  | invalidConfiguration
deriving DecidableEq, Repr

/-- Observer::new_with.  The Rust code panics when max_scale_factor < 1.0;
the panic is modelled as an error value (construction fails, no estimator
is produced).  Both Instant::now() reads are modelled by `now`. -/
def new_with (frequency_target : ℕ) (opts : Options) (now : ℕ) :
    Except ConfigError Observer :=
  if opts.max_scale_factor < 1 then
    .error .invalidConfiguration
  else
    .ok
      { frequency_target := frequency_target
        checkpoint_size := opts.first_checkpoint
        max_checkpoint_size := opts.max_checkpoint_size
        delay := opts.delay
        max_scale_factor := opts.max_scale_factor
        run_for := opts.run_for
        next_checkpoint := opts.first_checkpoint
        last_observation := now
        first_observation := now
        ticks := 0
        finished := false }

/-- The run_for test in Observer::tick_n:
`self.run_for.is_some_and(|r| observation_time.duration_since(self.first_observation) > r)`.
Instant::duration_since saturates at zero, which Nat subtraction models. -/
def runForExceeded (s : Observer) (now : ℕ) : Bool :=
  match s.run_for with
  | some r => decide (r < now - s.first_observation)
  | none => false

/-- The new checkpoint size computed at an adjustment in Observer::tick_n:
`((cs / ratio) as u64).max(1).min((cs * max_scale_factor) as u64)`,
then clamped to max_checkpoint_size when that is configured. -/
def newCS (s : Observer) (now : ℕ) : ℕ :=
  let cs1 :=
    min
      (max (rawCast s.checkpoint_size (now - s.last_observation) s.frequency_target) 1)
      (scaleCast s.checkpoint_size s.max_scale_factor)
  match s.max_checkpoint_size with
  | some m => min cs1 m
  | none => cs1

/-- The full state update performed when a checkpoint fires in
Observer::tick_n (run_for check, checkpoint-size adjustment, advance of
next_checkpoint, new last_observation). -/
def adjusted (s : Observer) (n : ℕ) (now : ℕ) : Observer :=
  { s with
      ticks := s.ticks + n
      finished := s.finished || runForExceeded s now
      checkpoint_size := newCS s now
      next_checkpoint := s.next_checkpoint + newCS s now
      last_observation := now }

/-- Observer::tick_n after the warm-up phase: add the ticks, then either
fire a checkpoint or report false. -/
def tickBody (s : Observer) (n : ℕ) (now : ℕ) : Bool × Observer :=
  if s.next_checkpoint ≤ s.ticks + n then
    (true, adjusted s n now)
  else
    (false, { s with ticks := s.ticks + n })

/-- Observer::tick_n (src/lib.rs lines 350-385): absorb warm-up delay
first, resetting the timing baseline on the call that exhausts it, then
count ticks and fire a checkpoint when due. -/
def tick_n (s : Observer) (n : ℕ) (now : ℕ) : Bool × Observer :=
  if 0 < s.delay then
    let adjustment := min n s.delay
    let s1 : Observer := { s with delay := s.delay - adjustment }
    if 0 < s1.delay then
      (false, s1)
    else
      tickBody
        { s1 with last_observation := now, first_observation := now }
        (n - adjustment) now
  else
    tickBody s n now

/-- Observer::tick, sugar for tick_n(1). -/
def tick (s : Observer) (now : ℕ) : Bool × Observer := tick_n s 1 now

/-- The Iterator impl for Observer:
`(!self.finished).then(|| self.tick())` — once finished, the sequence is
exhausted and the estimator is left untouched. -/
def next (s : Observer) (now : ℕ) : Option Bool × Observer :=
  if s.finished then (none, s)
  else ((tick s now).1, (tick s now).2)

/-- Run a sequence of tick_n calls, each with its own tick increment and
clock reading. -/
def runTrace (s : Observer) (calls : List (ℕ × ℕ)) : Observer :=
  calls.foldl (fun t c => (tick_n t c.1 c.2).2) s

/-- Run a sequence of single-tick calls (advance(1)), each with its own
clock reading. -/
def ticks1 (s : Observer) (nws : List ℕ) : Observer :=
  nws.foldl (fun t nw => (tick_n t 1 nw).2) s

/-- States reachable from a valid construction by advance calls. -/
inductive Reachable : Observer → Prop where
  | init (target : ℕ) (opts : Options) (now : ℕ) (s : Observer) :
      new_with target opts now = .ok s → Reachable s
  | step (s : Observer) (n : ℕ) (now : ℕ) :
      Reachable s → Reachable (tick_n s n now).2

/-- A fixed sample state: the result of constructing with target 1,
default options, at clock time 0. -/
def obsDefault : Observer :=
  { frequency_target := 1
    checkpoint_size := 1
    max_checkpoint_size := none
    delay := 0
    max_scale_factor := 2
    run_for := none
    next_checkpoint := 1
    last_observation := 0
    first_observation := 0
    ticks := 0
    finished := false }

/-! Branch lemmas for tick_n and tickBody. -/

/-- A call that does not exhaust the warm-up delay only decrements it. -/
lemma tick_n_delay_wait {s : Observer} {n : ℕ} (now : ℕ) (h : n < s.delay) :
    tick_n s n now = (false, { s with delay := s.delay - n }) := by
  have h0 : 0 < s.delay := Nat.lt_of_le_of_lt (Nat.zero_le n) h
  simp only [tick_n, if_pos h0, Nat.min_eq_left h.le,
    if_pos (Nat.sub_pos_of_lt h)]

/-- A call that exhausts the warm-up delay resets the timing baseline and
processes the remaining ticks. -/
lemma tick_n_delay_done {s : Observer} {n : ℕ} (now : ℕ) (h0 : 0 < s.delay)
    (h : s.delay ≤ n) :
    tick_n s n now =
      tickBody
        { s with delay := 0, last_observation := now, first_observation := now }
        (n - s.delay) now := by
  simp only [tick_n, if_pos h0, Nat.min_eq_right h, Nat.sub_self,
    lt_irrefl, if_false]

/-- With no warm-up delay, tick_n is its tick-counting body. -/
lemma tick_n_no_delay {s : Observer} {n : ℕ} (now : ℕ) (h : s.delay = 0) :
    tick_n s n now = tickBody s n now := by
  simp only [tick_n, h, lt_irrefl, if_false]

/-- The checkpoint branch of the body. -/
lemma tickBody_fire {s : Observer} {n : ℕ} (now : ℕ)
    (h : s.next_checkpoint ≤ s.ticks + n) :
    tickBody s n now = (true, adjusted s n now) := by
  simp only [tickBody, if_pos h]

/-- The no-checkpoint branch of the body. -/
lemma tickBody_skip {s : Observer} {n : ℕ} (now : ℕ)
    (h : ¬ s.next_checkpoint ≤ s.ticks + n) :
    tickBody s n now = (false, { s with ticks := s.ticks + n }) := by
  simp only [tickBody, if_neg h]

/-- The boolean returned by the body. -/
lemma tickBody_fst (s : Observer) (n now : ℕ) :
    (tickBody s n now).1 = decide (s.next_checkpoint ≤ s.ticks + n) := by
  by_cases h : s.next_checkpoint ≤ s.ticks + n
  · rw [tickBody_fire now h]; simp [h]
  · rw [tickBody_skip now h]; simp [h]

/-- Every tick_n call is either a pure warm-up decrement or a body call on
a state sharing every field of the input except the warm-up bookkeeping
and (possibly) the timing baseline. -/
lemma tick_n_shape (s : Observer) (n now : ℕ) :
    (∃ d, tick_n s n now = (false, { s with delay := d }) ∧ 0 < d) ∨
    (∃ s1 n1, tick_n s n now = tickBody s1 n1 now ∧
      s1.frequency_target = s.frequency_target ∧
      s1.checkpoint_size = s.checkpoint_size ∧
      s1.max_checkpoint_size = s.max_checkpoint_size ∧
      s1.max_scale_factor = s.max_scale_factor ∧
      s1.run_for = s.run_for ∧
      s1.next_checkpoint = s.next_checkpoint ∧
      s1.ticks = s.ticks ∧
      s1.finished = s.finished) := by
  by_cases h0 : 0 < s.delay
  · by_cases h1 : n < s.delay
    · exact Or.inl ⟨s.delay - n, tick_n_delay_wait now h1, by omega⟩
    · push_neg at h1
      exact Or.inr ⟨_, _, tick_n_delay_done now h0 h1,
        rfl, rfl, rfl, rfl, rfl, rfl, rfl, rfl⟩
  · have h : s.delay = 0 := by omega
    exact Or.inr ⟨s, n, tick_n_no_delay now h,
      rfl, rfl, rfl, rfl, rfl, rfl, rfl, rfl⟩

/-- The configuration fields are never modified by a tick_n call. -/
lemma tick_n_config (s : Observer) (n now : ℕ) :
    (tick_n s n now).2.frequency_target = s.frequency_target ∧
    (tick_n s n now).2.max_checkpoint_size = s.max_checkpoint_size ∧
    (tick_n s n now).2.max_scale_factor = s.max_scale_factor ∧
    (tick_n s n now).2.run_for = s.run_for := by
  rcases tick_n_shape s n now with ⟨d, heq, _⟩ |
    ⟨s1, n1, heq, hf, _, hmc, hms, hrf, _, _, _⟩
  · rw [heq]; exact ⟨rfl, rfl, rfl, rfl⟩
  · rw [heq]
    by_cases h : s1.next_checkpoint ≤ s1.ticks + n1
    · rw [tickBody_fire now h]; exact ⟨hf, hmc, hms, hrf⟩
    · rw [tickBody_skip now h]; exact ⟨hf, hmc, hms, hrf⟩

lemma runTrace_nil (s : Observer) : runTrace s [] = s := rfl

lemma runTrace_cons (s : Observer) (c : ℕ × ℕ) (calls : List (ℕ × ℕ)) :
    runTrace s (c :: calls) = runTrace (tick_n s c.1 c.2).2 calls := rfl

/-- The configuration fields are never modified along a trace. -/
lemma runTrace_config (calls : List (ℕ × ℕ)) (s : Observer) :
    (runTrace s calls).frequency_target = s.frequency_target ∧
    (runTrace s calls).max_checkpoint_size = s.max_checkpoint_size ∧
    (runTrace s calls).max_scale_factor = s.max_scale_factor ∧
    (runTrace s calls).run_for = s.run_for := by
  induction calls generalizing s with
  | nil => exact ⟨rfl, rfl, rfl, rfl⟩
  | cons c calls ih =>
    rw [runTrace_cons]
    obtain ⟨i1, i2, i3, i4⟩ := ih (tick_n s c.1 c.2).2
    obtain ⟨j1, j2, j3, j4⟩ := tick_n_config s c.1 c.2
    exact ⟨i1.trans j1, i2.trans j2, i3.trans j3, i4.trans j4⟩

/-! Arithmetic bounds on the modelled float casts. -/

/-- The scale cast never exceeds u64::MAX. -/
lemma scaleCast_le_u64 (cs : ℕ) (msf : ℚ) : scaleCast cs msf ≤ U64MAX :=
  min_le_right _ _

/-- The truncating scale cast is below the exact product, for a
nonnegative scale factor. -/
lemma scaleCast_cast_le (cs : ℕ) (msf : ℚ) (h : 0 ≤ msf) :
    (scaleCast cs msf : ℚ) ≤ (cs : ℚ) * msf := by
  unfold scaleCast
  have h1 : ((min (cs * msf.num.toNat / msf.den) U64MAX : ℕ) : ℚ) ≤
      ((cs * msf.num.toNat / msf.den : ℕ) : ℚ) :=
    Nat.cast_le.mpr (min_le_left _ _)
  refine h1.trans (Nat.cast_div_le.trans ?_)
  have h0 : (msf.num.toNat : ℤ) = msf.num := Int.toNat_of_nonneg (Rat.num_nonneg.mpr h)
  have hnum : ((msf.num.toNat : ℕ) : ℚ) = ((msf.num : ℤ) : ℚ) := by
    rw [← h0]
    exact (Int.cast_natCast _).symm
  push_cast
  rw [hnum, mul_div_assoc, Rat.num_div_den]

/-- The scale cast of a positive size by a factor of at least one is
itself at least one. -/
lemma one_le_scaleCast {cs : ℕ} {msf : ℚ} (hcs : 1 ≤ cs) (hmsf : 1 ≤ msf) :
    1 ≤ scaleCast cs msf := by
  unfold scaleCast
  have hden : 0 < msf.den := msf.den_pos
  have hnum : (msf.den : ℤ) ≤ msf.num := by
    have h2 : (1 : ℚ) ≤ (msf.num : ℚ) / (msf.den : ℚ) := by
      rw [Rat.num_div_den]; exact hmsf
    have hdq : (0 : ℚ) < (msf.den : ℚ) := by exact_mod_cast hden
    have := (le_div_iff₀ hdq).mp h2
    rw [one_mul] at this
    exact_mod_cast this
  have h3 : msf.den ≤ msf.num.toNat := by omega
  refine le_min ?_ (by unfold U64MAX; omega)
  rw [Nat.one_le_div_iff hden]
  calc msf.den ≤ msf.num.toNat := h3
    _ ≤ cs * msf.num.toNat := Nat.le_mul_of_pos_left _ hcs

/-- The adjusted checkpoint size never exceeds the scale cast. -/
lemma newCS_le_scaleCast (s : Observer) (now : ℕ) :
    newCS s now ≤ scaleCast s.checkpoint_size s.max_scale_factor := by
  unfold newCS
  cases h : s.max_checkpoint_size with
  | none => simp only; exact min_le_right _ _
  | some m => simp only; exact le_trans (min_le_left _ _) (min_le_right _ _)

/-- The adjusted checkpoint size respects the configured ceiling. -/
lemma newCS_le_mcs {s : Observer} {M : ℕ} (now : ℕ)
    (h : s.max_checkpoint_size = some M) : newCS s now ≤ M := by
  unfold newCS
  rw [h]
  exact min_le_right _ _

/-- The adjusted checkpoint size stays at least one, provided the previous
size, the scale factor and the configured ceiling allow it. -/
lemma one_le_newCS {s : Observer} (now : ℕ) (h1 : 1 ≤ s.checkpoint_size)
    (h2 : 1 ≤ s.max_scale_factor)
    (h3 : ∀ m ∈ s.max_checkpoint_size, 1 ≤ m) : 1 ≤ newCS s now := by
  have hsc := one_le_scaleCast h1 h2
  unfold newCS
  cases h : s.max_checkpoint_size with
  | none => exact le_min (le_max_right _ _) hsc
  | some m => exact le_min (le_min (le_max_right _ _) hsc) (h3 m (by simp [h]))

/-- A valid construction enforces a scale factor of at least one, and
advance calls never change it. -/
lemma Reachable.one_le_msf {s : Observer} (h : Reachable s) :
    1 ≤ s.max_scale_factor := by
  induction h with
  | init target opts now s hok =>
    unfold new_with at hok
    split at hok
    · exact absurd hok (by simp)
    · next hlt =>
      cases hok
      exact not_lt.mp hlt
  | step s n now hr ih =>
    rw [(tick_n_config s n now).2.2.1]
    exact ih

/-! Per-step lemmas about checkpoint sizes and checkpoints. -/

/-- One advance call keeps checkpoint_size at least one, under the
construction-time side conditions. -/
lemma csInv_step (s : Observer) (n now : ℕ)
    (h1 : 1 ≤ s.checkpoint_size) (h2 : 1 ≤ s.max_scale_factor)
    (h3 : ∀ m ∈ s.max_checkpoint_size, 1 ≤ m) :
    1 ≤ (tick_n s n now).2.checkpoint_size := by
  rcases tick_n_shape s n now with ⟨d, heq, _⟩ |
    ⟨s1, n1, heq, _, hcs, hmc, hms, _, _, _, _⟩
  · rw [heq]; exact h1
  · rw [heq]
    by_cases h : s1.next_checkpoint ≤ s1.ticks + n1
    · rw [tickBody_fire now h]
      exact one_le_newCS now (by rw [hcs]; exact h1) (by rw [hms]; exact h2)
        (by rw [hmc]; exact h3)
    · rw [tickBody_skip now h]
      show 1 ≤ s1.checkpoint_size
      rw [hcs]; exact h1

/-- checkpoint_size stays at least one along any trace, under the
construction-time side conditions. -/
lemma csInv_trace (calls : List (ℕ × ℕ)) (s : Observer)
    (h1 : 1 ≤ s.checkpoint_size) (h2 : 1 ≤ s.max_scale_factor)
    (h3 : ∀ m ∈ s.max_checkpoint_size, 1 ≤ m) :
    1 ≤ (runTrace s calls).checkpoint_size := by
  induction calls generalizing s with
  | nil => exact h1
  | cons c calls ih =>
    rw [runTrace_cons]
    obtain ⟨_, jmc, jms, _⟩ := tick_n_config s c.1 c.2
    exact ih _ (csInv_step s c.1 c.2 h1 h2 h3) (by rw [jms]; exact h2)
      (by rw [jmc]; exact h3)

/-- One advance call moves next_checkpoint up by at most the configured
ceiling. -/
lemma next_le_step {s : Observer} {M : ℕ} (n now : ℕ)
    (h : s.max_checkpoint_size = some M) :
    (tick_n s n now).2.next_checkpoint ≤ s.next_checkpoint + M := by
  rcases tick_n_shape s n now with ⟨d, heq, _⟩ |
    ⟨s1, n1, heq, _, _, hmc, _, _, hnx, _, _⟩
  · rw [heq]; exact Nat.le_add_right _ _
  · rw [heq]
    by_cases hf : s1.next_checkpoint ≤ s1.ticks + n1
    · rw [tickBody_fire now hf]
      have h1 : newCS s1 now ≤ M := newCS_le_mcs now (by rw [hmc]; exact h)
      show s1.next_checkpoint + newCS s1 now ≤ s.next_checkpoint + M
      omega
    · rw [tickBody_skip now hf]
      show s1.next_checkpoint ≤ s.next_checkpoint + M
      omega

/-- One advance call never decreases next_checkpoint. -/
lemma next_mono_step (s : Observer) (n now : ℕ) :
    s.next_checkpoint ≤ (tick_n s n now).2.next_checkpoint := by
  rcases tick_n_shape s n now with ⟨d, heq, _⟩ |
    ⟨s1, n1, heq, _, _, _, _, _, hnx, _, _⟩
  · rw [heq]
  · rw [heq]
    by_cases hf : s1.next_checkpoint ≤ s1.ticks + n1
    · rw [tickBody_fire now hf]
      show s.next_checkpoint ≤ s1.next_checkpoint + newCS s1 now
      omega
    · rw [tickBody_skip now hf]
      show s.next_checkpoint ≤ s1.next_checkpoint
      omega

/-- next_checkpoint never decreases along a trace. -/
lemma next_mono_trace (calls : List (ℕ × ℕ)) (s : Observer) :
    s.next_checkpoint ≤ (runTrace s calls).next_checkpoint := by
  induction calls generalizing s with
  | nil => exact le_rfl
  | cons c calls ih =>
    rw [runTrace_cons]
    exact le_trans (next_mono_step s c.1 c.2) (ih _)

/-- On a firing call, next_checkpoint grows by exactly the adjusted
checkpoint_size. -/
lemma next_fire_exact (s : Observer) (n now : ℕ)
    (hfire : (tick_n s n now).1 = true) :
    (tick_n s n now).2.next_checkpoint =
      s.next_checkpoint + (tick_n s n now).2.checkpoint_size := by
  rcases tick_n_shape s n now with ⟨d, heq, _⟩ |
    ⟨s1, n1, heq, _, _, _, _, _, hnx, _, _⟩
  · rw [heq] at hfire; simp at hfire
  · rw [heq] at hfire ⊢
    by_cases hf : s1.next_checkpoint ≤ s1.ticks + n1
    · rw [tickBody_fire now hf]
      show s1.next_checkpoint + newCS s1 now = s.next_checkpoint + newCS s1 now
      omega
    · rw [tickBody_skip now hf] at hfire; simp at hfire

/-- On a non-firing call, next_checkpoint is unchanged. -/
lemma next_nofire (s : Observer) (n now : ℕ)
    (hfire : (tick_n s n now).1 = false) :
    (tick_n s n now).2.next_checkpoint = s.next_checkpoint := by
  rcases tick_n_shape s n now with ⟨d, heq, _⟩ |
    ⟨s1, n1, heq, _, _, _, _, _, hnx, _, _⟩
  · rw [heq]
  · rw [heq] at hfire ⊢
    by_cases hf : s1.next_checkpoint ≤ s1.ticks + n1
    · rw [tickBody_fire now hf] at hfire; simp at hfire
    · rw [tickBody_skip now hf]
      show s1.next_checkpoint = s.next_checkpoint
      omega

/-! The claims. -/

/-- C1: for every estimator state reachable from a valid construction and
every single advance call that performs an adjustment (the call reports a
checkpoint), the checkpoint_size after the adjustment is at most the
previous checkpoint_size multiplied by max_scale_factor. -/
theorem scale_factor_bound (s : Observer) (n now : ℕ)
    (hreach : Reachable s) (hfire : (tick_n s n now).1 = true) :
    ((tick_n s n now).2.checkpoint_size : ℚ) ≤
      (s.checkpoint_size : ℚ) * s.max_scale_factor := by
  have hmsf : 1 ≤ s.max_scale_factor := hreach.one_le_msf
  rcases tick_n_shape s n now with ⟨d, heq, _⟩ |
    ⟨s1, n1, heq, _, hcs, _, hms, _, _, _, _⟩
  · rw [heq] at hfire; simp at hfire
  · rw [heq] at hfire ⊢
    by_cases h : s1.next_checkpoint ≤ s1.ticks + n1
    · rw [tickBody_fire now h]
      have hmsf1 : 1 ≤ s1.max_scale_factor := by rw [hms]; exact hmsf
      have b1 : newCS s1 now ≤ scaleCast s1.checkpoint_size s1.max_scale_factor :=
        newCS_le_scaleCast s1 now
      have b2 : (scaleCast s1.checkpoint_size s1.max_scale_factor : ℚ) ≤
          (s1.checkpoint_size : ℚ) * s1.max_scale_factor :=
        scaleCast_cast_le _ _ (le_trans zero_le_one hmsf1)
      calc ((adjusted s1 n1 now).checkpoint_size : ℚ)
          = (newCS s1 now : ℚ) := rfl
        _ ≤ (scaleCast s1.checkpoint_size s1.max_scale_factor : ℚ) :=
            Nat.cast_le.mpr b1
        _ ≤ (s1.checkpoint_size : ℚ) * s1.max_scale_factor := b2
        _ = (s.checkpoint_size : ℚ) * s.max_scale_factor := by rw [hcs, hms]
    · rw [tickBody_skip now h] at hfire; simp at hfire

/-- Witness for C1 at a concrete reachable state and firing call. -/
theorem scale_factor_bound_witness :
    (tick_n obsDefault 1 0).1 = true ∧
    ((tick_n obsDefault 1 0).2.checkpoint_size : ℚ) ≤
      (obsDefault.checkpoint_size : ℚ) * obsDefault.max_scale_factor :=
  ⟨rfl, scale_factor_bound obsDefault 1 0
    (Reachable.init 1 Options.default 0 obsDefault rfl) rfl⟩

/-- C2 counterexample: constructing with first_checkpoint = 0 (an allowed
option) succeeds and yields checkpoint_size = 0 immediately after
construction, violating the claimed floor of 1. -/
theorem checkpoint_floor_cex :
    new_with 1 { Options.default with first_checkpoint := 0 } 0 =
      Except.ok { obsDefault with checkpoint_size := 0, next_checkpoint := 0 } ∧
    ({ obsDefault with checkpoint_size := 0, next_checkpoint := 0 } : Observer).checkpoint_size < 1 :=
  ⟨rfl, by decide⟩

/-- C2 (amended): for every estimator constructed with first_checkpoint at
least 1 and (when configured) max_checkpoint_size at least 1,
checkpoint_size is at least 1 at all times: immediately after
construction and after every sequence of advance calls, regardless
of the observed clock values. -/
theorem checkpoint_floor (target now : ℕ) (opts : Options) (s : Observer)
    (hok : new_with target opts now = Except.ok s)
    (hfc : 1 ≤ opts.first_checkpoint)
    (hmcs : ∀ m ∈ opts.max_checkpoint_size, 1 ≤ m)
    (calls : List (ℕ × ℕ)) :
    1 ≤ (runTrace s calls).checkpoint_size := by
  unfold new_with at hok
  split at hok
  · exact absurd hok (by simp)
  · next hlt =>
    cases hok
    exact csInv_trace calls _ hfc (not_lt.mp hlt) hmcs

/-- Witness for C2 at the default construction and a one-call trace. -/
theorem checkpoint_floor_witness :
    new_with 1 Options.default 0 = Except.ok obsDefault ∧
    1 ≤ (runTrace obsDefault [(1, 1)]).checkpoint_size :=
  ⟨rfl, checkpoint_floor 1 0 Options.default obsDefault rfl (by decide)
    (by simp [Options.default]) [(1, 1)]⟩

/-- The state built with first_checkpoint = 100 and max_checkpoint_size = 5. -/
def obsBigFirst : Observer :=
  { frequency_target := 1
    checkpoint_size := 100
    max_checkpoint_size := some 5
    delay := 0
    max_scale_factor := 2
    run_for := none
    next_checkpoint := 100
    last_observation := 0
    first_observation := 0
    ticks := 0
    finished := false }

/-- The options with first_checkpoint = 100 and max_checkpoint_size = 5. -/
def optsBigFirst : Options :=
  { first_checkpoint := 100
    max_checkpoint_size := some 5
    delay := 0
    max_scale_factor := 2
    run_for := none }

/-- C3 counterexample: with max_checkpoint_size = 5 but first_checkpoint =
100, construction succeeds and the initial checkpoint interval (from 0 to
the first next_checkpoint) is 100, exceeding the ceiling of 5. -/
theorem ceiling_cex :
    new_with 1 optsBigFirst 0 = Except.ok obsBigFirst ∧
    5 < obsBigFirst.next_checkpoint :=
  ⟨rfl, by decide⟩

/-- C3 (amended): for every estimator constructed with max_checkpoint_size
= M and first_checkpoint at most M, no checkpoint interval ever exceeds M
ticks: the initial interval (from 0 to the first next_checkpoint) is at
most M, and each advance call moves next_checkpoint up by at most M,
whatever trace preceded it. -/
theorem ceiling_respected (target now : ℕ) (opts : Options) (M : ℕ)
    (s : Observer)
    (hok : new_with target opts now = Except.ok s)
    (hM : opts.max_checkpoint_size = some M)
    (hfc : opts.first_checkpoint ≤ M) :
    s.next_checkpoint ≤ M ∧
    ∀ calls n now2,
      (tick_n (runTrace s calls) n now2).2.next_checkpoint ≤
        (runTrace s calls).next_checkpoint + M := by
  unfold new_with at hok
  split at hok
  · exact absurd hok (by simp)
  · cases hok
    refine ⟨hfc, ?_⟩
    intro calls n now2
    refine next_le_step n now2 ?_
    rw [(runTrace_config calls _).2.1]
    exact hM

/-- The default options with a checkpoint ceiling of 5. -/
def optsCeiling5 : Options :=
  { Options.default with max_checkpoint_size := some 5 }

/-- The state built from optsCeiling5 at clock time 0. -/
def obsCeiling5 : Observer :=
  { obsDefault with max_checkpoint_size := some 5 }

/-- Witness for C3 at a concrete construction, trace and call. -/
theorem ceiling_respected_witness :
    new_with 1 optsCeiling5 0 = Except.ok obsCeiling5 ∧
    (tick_n (runTrace obsCeiling5 [(1, 2)]) 3 4).2.next_checkpoint ≤
      (runTrace obsCeiling5 [(1, 2)]).next_checkpoint + 5 :=
  ⟨rfl, (ceiling_respected 1 0 optsCeiling5 5 obsCeiling5 rfl rfl (by decide)).2
    [(1, 2)] 3 4⟩

/-- C4: next_checkpoint never decreases; a call that reports a checkpoint
increases it by exactly the checkpoint_size computed at that step, a call
that does not leaves it unchanged; and it is non-decreasing along every
sequence of advance calls. -/
theorem next_checkpoint_monotone (s : Observer) (n now : ℕ) :
    s.next_checkpoint ≤ (tick_n s n now).2.next_checkpoint ∧
    ((tick_n s n now).1 = true →
      (tick_n s n now).2.next_checkpoint =
        s.next_checkpoint + (tick_n s n now).2.checkpoint_size) ∧
    ((tick_n s n now).1 = false →
      (tick_n s n now).2.next_checkpoint = s.next_checkpoint) ∧
    ∀ calls, s.next_checkpoint ≤ (runTrace s calls).next_checkpoint :=
  ⟨next_mono_step s n now,
   next_fire_exact s n now,
   next_nofire s n now,
   fun calls => next_mono_trace calls s⟩

/-- Witness for C4 at a concrete state and firing call. -/
theorem next_checkpoint_monotone_witness :
    (tick_n obsDefault 1 1).1 = true ∧
    (tick_n obsDefault 1 1).2.next_checkpoint =
      obsDefault.next_checkpoint + (tick_n obsDefault 1 1).2.checkpoint_size :=
  ⟨rfl, (next_checkpoint_monotone obsDefault 1 1).2.1 rfl⟩

/-- C5: when a checkpoint fires with zero measured elapsed time since
last_observation (and a positive target interval), the call reports a
checkpoint and sets checkpoint_size to the scale-factor ceiling: the cast
of checkpoint_size times max_scale_factor, further limited by
max_checkpoint_size when configured.  The result is a well-defined
natural number; the f64 infinity arising from the zero division never
propagates. -/
theorem zero_elapsed_max_growth (s : Observer) (n now : ℕ)
    (hdelay : s.delay = 0)
    (hdue : s.next_checkpoint ≤ s.ticks + n)
    (htarget : 0 < s.frequency_target)
    (hnow : now ≤ s.last_observation) :
    (tick_n s n now).1 = true ∧
    (tick_n s n now).2.checkpoint_size =
      (match s.max_checkpoint_size with
       | some m => min (scaleCast s.checkpoint_size s.max_scale_factor) m
       | none => scaleCast s.checkpoint_size s.max_scale_factor) := by
  rw [tick_n_no_delay now hdelay, tickBody_fire now hdue]
  refine ⟨rfl, ?_⟩
  show newCS s now = _
  unfold newCS
  have helapsed : now - s.last_observation = 0 := by omega
  rw [helapsed]
  unfold rawCast
  rw [if_pos htarget, if_neg (lt_irrefl 0)]
  by_cases hcs : s.checkpoint_size = 0
  · rw [if_pos hcs]
    have hsc : scaleCast s.checkpoint_size s.max_scale_factor = 0 := by
      rw [hcs]; unfold scaleCast; simp
    rw [hsc]
    cases h : s.max_checkpoint_size <;> simp [h]
  · rw [if_neg hcs]
    have h1 : max U64MAX 1 = U64MAX := by unfold U64MAX; omega
    have h2 : min U64MAX (scaleCast s.checkpoint_size s.max_scale_factor) =
        scaleCast s.checkpoint_size s.max_scale_factor :=
      min_eq_right (scaleCast_le_u64 _ _)
    rw [h1, h2]

/-- Witness for C5 at a concrete state with zero elapsed time. -/
theorem zero_elapsed_max_growth_witness :
    (tick_n obsDefault 1 0).1 = true ∧
    (tick_n obsDefault 1 0).2.checkpoint_size =
      (match obsDefault.max_checkpoint_size with
       | some m => min (scaleCast obsDefault.checkpoint_size obsDefault.max_scale_factor) m
       | none => scaleCast obsDefault.checkpoint_size obsDefault.max_scale_factor) :=
  zero_elapsed_max_growth obsDefault 1 0 rfl (by decide) (by decide) (by decide)

/-- C6: construction with max_scale_factor strictly below 1 fails with
InvalidConfiguration and produces no estimator; construction with
max_scale_factor exactly 1 succeeds; and every successful construction
initializes checkpoint_size = next_checkpoint = first_checkpoint,
ticks = 0, remaining delay = delay, and finished = false. -/
theorem invalid_config_rejected (target now : ℕ) (opts : Options) :
    (opts.max_scale_factor < 1 →
      new_with target opts now = Except.error ConfigError.invalidConfiguration) ∧
    (opts.max_scale_factor = 1 →
      ∃ s, new_with target opts now = Except.ok s) ∧
    (∀ s, new_with target opts now = Except.ok s →
      s.checkpoint_size = opts.first_checkpoint ∧
      s.next_checkpoint = opts.first_checkpoint ∧
      s.ticks = 0 ∧
      s.delay = opts.delay ∧
      s.finished = false) := by
  refine ⟨?_, ?_, ?_⟩
  · intro h
    unfold new_with
    rw [if_pos h]
  · intro h
    unfold new_with
    rw [if_neg (by rw [h]; exact lt_irrefl 1)]
    exact ⟨_, rfl⟩
  · intro s hok
    unfold new_with at hok
    split at hok
    · exact absurd hok (by simp)
    · cases hok
      exact ⟨rfl, rfl, rfl, rfl, rfl⟩

/-- The default options with max_scale_factor = 0.5. -/
def optsHalf : Options :=
  { Options.default with max_scale_factor := mkRat 1 2 }

/-- The default options with max_scale_factor = 1. -/
def optsOne : Options :=
  { Options.default with max_scale_factor := 1 }

/-- Witness for C6: max_scale_factor = 0.5 is rejected, 1.0 succeeds. -/
theorem invalid_config_rejected_witness :
    new_with 1 optsHalf 0 = Except.error ConfigError.invalidConfiguration ∧
    (∃ s, new_with 1 optsOne 0 = Except.ok s) :=
  ⟨(invalid_config_rejected 1 0 optsHalf).1 (by decide),
   (invalid_config_rejected 1 0 optsOne).2.1 rfl⟩

/-- During warm-up, single-tick calls only count down the remaining
delay. -/
lemma ticks1_warmup (nws : List ℕ) : ∀ s : Observer, nws.length < s.delay →
    ticks1 s nws = { s with delay := s.delay - nws.length } := by
  induction nws with
  | nil => intro s h; rfl
  | cons nw nws ih =>
    intro s h
    have hlen : nws.length + 1 < s.delay := by simpa using h
    have h1 : (1 : ℕ) < s.delay := by omega
    show ticks1 (tick_n s 1 nw).2 nws = _
    rw [tick_n_delay_wait nw h1]
    rw [ih _ (by show nws.length < s.delay - 1; omega)]
    have h3 : s.delay - 1 - nws.length = s.delay - (nw :: nws).length := by
      show s.delay - 1 - nws.length = s.delay - (nws.length + 1)
      omega
    rw [h3]

/-- The single-tick call that brings the remaining delay to zero resets
the timing baseline, counts no tick, and reports false (provided the
first checkpoint is not zero ticks away). -/
lemma warmup_last_call (s : Observer) (nw : ℕ) (hdel : s.delay = 1)
    (hnext : 0 < s.next_checkpoint) (hticks : s.ticks = 0) :
    tick_n s 1 nw =
      (false,
        { s with delay := 0, last_observation := nw, first_observation := nw }) := by
  rw [tick_n_delay_done nw (by omega) (by omega)]
  have hn : 1 - s.delay = 0 := by omega
  rw [hn]
  rw [tickBody_skip nw (by show ¬ s.next_checkpoint ≤ s.ticks + 0; omega)]
  rfl

/-- The default options with a warm-up delay of D. -/
def optsDelay (D : ℕ) : Options :=
  { Options.default with delay := D }

/-- C7: with a warm-up delay of D (and otherwise default options), each of
the first D advance(1) calls returns false; before the Dth call the state
differs from the constructed one only in the remaining delay, so the
timing baseline is untouched and no tick is counted; the Dth call brings
the remaining delay to 0, resets the timing baseline to its own clock
reading, and still counts no tick. -/
theorem delay_absorption (target now0 D : ℕ) (hD : 1 ≤ D) (s : Observer)
    (hok : new_with target (optsDelay D) now0 = Except.ok s) :
    (∀ (nws : List ℕ) (nw : ℕ), nws.length + 1 < D →
      tick_n (ticks1 s nws) 1 nw =
        (false, { s with delay := D - (nws.length + 1) })) ∧
    (∀ (nws : List ℕ) (nw : ℕ), nws.length + 1 = D →
      tick_n (ticks1 s nws) 1 nw =
        (false,
          { s with delay := 0, last_observation := nw, first_observation := nw })) := by
  unfold new_with at hok
  rw [if_neg (by norm_num [optsDelay, Options.default])] at hok
  injection hok with hs
  subst hs
  constructor
  · intro nws nw hlen
    rw [ticks1_warmup nws _ (by show nws.length < D; omega)]
    rw [tick_n_delay_wait nw (by show 1 < D - nws.length; omega)]
    simp only [Prod.mk.injEq, Observer.mk.injEq, true_and, and_true]
    show D - nws.length - 1 = D - (nws.length + 1)
    omega
  · intro nws nw hlen
    rw [ticks1_warmup nws _ (by show nws.length < D; omega)]
    rw [warmup_last_call _ nw (by show D - nws.length = 1; omega)
      (by show (0:ℕ) < 1; omega) rfl]

/-- The state built with a warm-up delay of 2 at clock time 0. -/
def obsDelay2 : Observer :=
  { obsDefault with delay := 2 }

/-- Witness for C7 at delay 2: the first call only counts down, the second
completes the warm-up and resets the baseline; both return false. -/
theorem delay_absorption_witness :
    new_with 1 (optsDelay 2) 0 = Except.ok obsDelay2 ∧
    tick_n (ticks1 obsDelay2 []) 1 5 =
      (false, { obsDelay2 with delay := 2 - (0 + 1) }) ∧
    tick_n (ticks1 obsDelay2 [3]) 1 7 =
      (false,
        { obsDelay2 with delay := 0, last_observation := 7, first_observation := 7 }) :=
  ⟨rfl,
   (delay_absorption 1 0 2 (by decide) obsDelay2 rfl).1 [] 5 (by decide),
   (delay_absorption 1 0 2 (by decide) obsDelay2 rfl).2 [3] 7 (by decide)⟩

/-- One advance call never clears the finished flag. -/
lemma finished_mono_step (s : Observer) (n now : ℕ) (h : s.finished = true) :
    (tick_n s n now).2.finished = true := by
  rcases tick_n_shape s n now with ⟨d, heq, _⟩ |
    ⟨s1, n1, heq, _, _, _, _, _, _, _, hfin⟩
  · rw [heq]; exact h
  · rw [heq]
    by_cases hf : s1.next_checkpoint ≤ s1.ticks + n1
    · rw [tickBody_fire now hf]
      show (s1.finished || runForExceeded s1 now) = true
      rw [hfin, h]
      simp
    · rw [tickBody_skip now hf]
      show s1.finished = true
      rw [hfin]; exact h

/-- The finished flag stays set along any trace. -/
lemma finished_mono_trace (calls : List (ℕ × ℕ)) (s : Observer)
    (h : s.finished = true) : (runTrace s calls).finished = true := by
  induction calls generalizing s with
  | nil => exact h
  | cons c calls ih =>
    rw [runTrace_cons]
    exact ih _ (finished_mono_step s c.1 c.2 h)

/-- Without a run_for cutoff, one advance call never sets finished. -/
lemma finished_stable_none_step (s : Observer) (n now : ℕ)
    (hrf : s.run_for = none) (h : s.finished = false) :
    (tick_n s n now).2.finished = false := by
  rcases tick_n_shape s n now with ⟨d, heq, _⟩ |
    ⟨s1, n1, heq, _, _, _, _, hrf1, _, _, hfin⟩
  · rw [heq]; exact h
  · rw [heq]
    by_cases hf : s1.next_checkpoint ≤ s1.ticks + n1
    · rw [tickBody_fire now hf]
      show (s1.finished || runForExceeded s1 now) = false
      unfold runForExceeded
      rw [hfin, h, hrf1, hrf]
      rfl
    · rw [tickBody_skip now hf]
      show s1.finished = false
      rw [hfin]; exact h

/-- Without a run_for cutoff, finished stays clear along any trace. -/
lemma finished_stable_none_trace (calls : List (ℕ × ℕ)) (s : Observer)
    (hrf : s.run_for = none) (h : s.finished = false) :
    (runTrace s calls).finished = false := by
  induction calls generalizing s with
  | nil => exact h
  | cons c calls ih =>
    rw [runTrace_cons]
    exact ih _ (by rw [(tick_n_config s c.1 c.2).2.2.2]; exact hrf)
      (finished_stable_none_step s c.1 c.2 hrf h)

/-- The boolean returned by tick_n depends only on the warm-up delay, the
tick counter and next_checkpoint. -/
lemma tick_n_fst (s : Observer) (n now : ℕ) :
    (tick_n s n now).1 =
      (decide (s.delay ≤ n) &&
        decide (s.next_checkpoint ≤ s.ticks + (n - s.delay))) := by
  by_cases h0 : 0 < s.delay
  · by_cases h1 : n < s.delay
    · rw [tick_n_delay_wait now h1]
      have h2 : ¬ s.delay ≤ n := by omega
      simp [h2]
    · push_neg at h1
      rw [tick_n_delay_done now h0 h1, tickBody_fst]
      simp [h1]
  · have h : s.delay = 0 := by omega
    rw [tick_n_no_delay now h, tickBody_fst]
    simp [h]

/-- C8: finished is monotone (per call and along any trace); with run_for
= R configured, a due checkpoint observed more than R after
first_observation still reports true on that same call and sets finished;
the boolean behaviour of a direct advance call ignores the finished flag
entirely (no hard stop); a finished estimator yields the exhaustion
signal from the sequence form; and with no run_for configured finished
stays false along every trace, so the sequence form never exhausts. -/
theorem run_for_cutoff :
    (∀ (s : Observer) (n now : ℕ), s.finished = true →
      (tick_n s n now).2.finished = true) ∧
    (∀ (s : Observer) (calls : List (ℕ × ℕ)), s.finished = true →
      (runTrace s calls).finished = true) ∧
    (∀ (s : Observer) (n now R : ℕ), s.delay = 0 → s.run_for = some R →
      s.next_checkpoint ≤ s.ticks + n → R < now - s.first_observation →
      (tick_n s n now).1 = true ∧ (tick_n s n now).2.finished = true) ∧
    (∀ (s : Observer) (n now : ℕ) (b : Bool),
      (tick_n { s with finished := b } n now).1 = (tick_n s n now).1) ∧
    (∀ (s : Observer) (now : ℕ), s.finished = true → (next s now).1 = none) ∧
    (∀ (s : Observer) (calls : List (ℕ × ℕ)) (now : ℕ), s.run_for = none →
      s.finished = false →
      (runTrace s calls).finished = false ∧
      (next (runTrace s calls) now).1 = some (tick (runTrace s calls) now).1) := by
  refine ⟨finished_mono_step, fun s calls => finished_mono_trace calls s,
    ?_, ?_, ?_, ?_⟩
  · intro s n now R hdelay hrf hdue hexceed
    rw [tick_n_no_delay now hdelay, tickBody_fire now hdue]
    refine ⟨rfl, ?_⟩
    show (s.finished || runForExceeded s now) = true
    unfold runForExceeded
    rw [hrf]
    simp [hexceed]
  · intro s n now b
    rw [tick_n_fst, tick_n_fst]
  · intro s now h
    unfold next
    rw [if_pos h]
  · intro s calls now hrf h
    have hfin : (runTrace s calls).finished = false :=
      finished_stable_none_trace calls s hrf h
    refine ⟨hfin, ?_⟩
    unfold next
    rw [if_neg (by rw [hfin]; exact Bool.false_ne_true)]

/-- The default construction with run_for = 1. -/
def obsRunFor : Observer :=
  { obsDefault with run_for := some 1 }

/-- Witness for C8 at a concrete state whose cutoff has passed. -/
theorem run_for_cutoff_witness :
    (tick_n obsRunFor 1 5).1 = true ∧ (tick_n obsRunFor 1 5).2.finished = true :=
  run_for_cutoff.2.2.1 obsRunFor 1 5 1 rfl rfl (by decide) (by decide)

/-- C9 counterexample: from the default construction, advance(2) leaves
ticks_total at or past next_checkpoint, and the following advance(0) call
fires a checkpoint and returns true instead of being a no-op returning
false. -/
theorem advance_zero_cex :
    (tick_n (tick_n obsDefault 2 3).2 0 4).1 = true := by decide

/-- C9 (amended): advance(0) returns false and leaves the whole state
unchanged whenever the estimator is still warming up (delay_remaining
positive) or no checkpoint is already due (ticks_total below
next_checkpoint); when ticks_total has already reached next_checkpoint,
advance(0) instead fires an adjustment. -/
theorem advance_zero_noop (s : Observer) (now : ℕ)
    (h : 0 < s.delay ∨ s.ticks < s.next_checkpoint) :
    tick_n s 0 now = (false, s) := by
  by_cases h0 : 0 < s.delay
  · rw [tick_n_delay_wait now h0]
    rfl
  · have hd : s.delay = 0 := by omega
    have hlt : s.ticks < s.next_checkpoint := h.resolve_left h0
    rw [tick_n_no_delay now hd, tickBody_skip now (by omega)]
    rfl

/-- Witness for C9 at the freshly constructed default state. -/
theorem advance_zero_noop_witness :
    (0 < obsDefault.delay ∨ obsDefault.ticks < obsDefault.next_checkpoint) ∧
    tick_n obsDefault 0 7 = (false, obsDefault) :=
  ⟨Or.inr (by decide), advance_zero_noop obsDefault 7 (Or.inr (by decide))⟩

/-- C10: once finished is set, a pull on the sequence form returns the
exhaustion signal and leaves every field of the estimator unchanged. -/
theorem iterator_finished_noop (s : Observer) (now : ℕ)
    (h : s.finished = true) :
    next s now = (none, s) := by
  unfold next
  rw [if_pos h]

/-- The default construction with the finished flag set. -/
def obsFinished : Observer :=
  { obsDefault with finished := true }

/-- Witness for C10 at a concrete finished state. -/
theorem iterator_finished_noop_witness :
    obsFinished.finished = true ∧ next obsFinished 3 = (none, obsFinished) :=
  ⟨rfl, iterator_finished_noop obsFinished 3 rfl⟩

end ProgressObserver
